import Mathlib

/-!
# Verification of the gomocker expectation engine

Shallow embedding of the gomocker test-double engine: the expectation
registry (`mocker` state with `entries`, `current`, `temp`), the builder
methods (`setup`, `Expects`, `Returns`, `SideEffects`, `Times`, `Once`,
`Twice`, `NotCalled`), the call dispatcher created by `makeFunc`
(modelled as `makeFuncBody` / `makeFuncCall`), the parameter comparison
(`doComparison`, `compareNormalParameters`, `compareVariadicParameters`),
return synthesis (`returnZeros`, `constructReturns`) and teardown
verification (`verifyAll` / `verifyEntry`).

Modelling conventions:
* Go's type-erased runtime values (`any` / `reflect.Value`) are modelled
  by the inductive `GoVal`; `reflect.DeepEqual` is structural equality
  on `GoVal`.  All values flowing through the dispatcher are valid
  reflect values (`reflect.MakeFunc` hands over valid arguments), so
  `actual.IsValid()` is `true` throughout and is not modelled separately.
* `reflect.Value.IsNil` is only defined on nilable kinds (chan, func,
  interface, map, pointer, slice) and panics otherwise; `goIsNilable`
  records which modelled values are of such kinds, and `doComparison`
  panics exactly where the Go code does.
* Go panics are modelled as an `Option String` flowing out of each
  effectful function: `some msg` means the computation panicked with
  `msg` after emitting the reports/events accumulated so far (Errorf
  calls already issued stay issued, as in Go).
* `testing.TB` reports (`Errorf`/`Fatalf`) are modelled by the `Report`
  inductive, emitted in order.  `Fatalf` in the source is always
  followed by `return`, which the model reflects by returning right
  after emitting the fatal report.
* User side-effect callbacks are arbitrary code: a callback is modelled
  as a function returning either a list of observable events (`List Nat`)
  or a panic message.  Predicate matchers (`Matches`) may likewise panic
  (e.g. via the `value.(T)` type assertion).
* Go `int` is modelled as `Int` (no claim depends on 64-bit overflow).
-/

namespace Gomocker

/-- Type-erased Go runtime values as seen by the engine.  `vnil` is the
nil value of a nilable kind (pointer, slice, map, chan, func, interface);
`vptr` a non-nil pointer; `vslice` a (non-nil) slice value. -/
inductive GoVal where
  | vnil : GoVal
  | vint : Int → GoVal
  | vstr : String → GoVal
  | vbool : Bool → GoVal
  | vptr : Nat → GoVal
  | vslice : List GoVal → GoVal

mutual

/-- `reflect.DeepEqual` on the modelled values (structural equality;
the modelled values contain no NaN or function values, on which Go's
DeepEqual would not be reflexive). -/
def goDeepEqual : GoVal → GoVal → Bool
  | GoVal.vnil, GoVal.vnil => true
  | GoVal.vint a, GoVal.vint b => a == b
  | GoVal.vstr a, GoVal.vstr b => a == b
  | GoVal.vbool a, GoVal.vbool b => a == b
  | GoVal.vptr a, GoVal.vptr b => a == b
  | GoVal.vslice xs, GoVal.vslice ys => goDeepEqualList xs ys
  | _, _ => false

/-- Element-wise `reflect.DeepEqual` on slices. -/
def goDeepEqualList : List GoVal → List GoVal → Bool
  | [], [] => true
  | x :: xs, y :: ys => goDeepEqual x y && goDeepEqualList xs ys
  | _, _ => false

end

/-- Declared Go types, as far as zero-value synthesis needs them
(`reflect.Zero(funcType.Out(i))`). -/
inductive GoType where
  | tInt : GoType
  | tString : GoType
  | tBool : GoType
  | tPtr : GoType
  | tSlice : GoType
  | tInterface : GoType
deriving DecidableEq, Repr

/-- `reflect.Zero` for the modelled types. -/
def zeroOf : GoType → GoVal
  | GoType.tInt => GoVal.vint 0
  | GoType.tString => GoVal.vstr ""
  | GoType.tBool => GoVal.vbool false
  | GoType.tPtr => GoVal.vnil
  | GoType.tSlice => GoVal.vnil
  | GoType.tInterface => GoVal.vnil

/-- Whether `reflect.Value.IsNil` is defined for this value's kind
(chan, func, interface, map, pointer, slice); on other kinds Go panics. -/
def goIsNilable : GoVal → Bool
  | GoVal.vnil => true
  | GoVal.vptr _ => true
  | GoVal.vslice _ => true
  | _ => false

/-- `reflect.Value.IsNil`, meaningful only when `goIsNilable`. -/
def goIsNil : GoVal → Bool
  | GoVal.vnil => true
  | _ => false

/-- `reflect.Value.Len` for the variadic slice argument; `vnil` models a
nil slice value at a slice-typed position (Len 0).  Panics (`.error`)
on kinds without a length. -/
def goLen : GoVal → Except String Int
  | GoVal.vslice xs => Except.ok (xs.length : Int)
  | GoVal.vnil => Except.ok 0
  | _ => Except.error "reflect: call of reflect.Value.Len on non-slice value"

/-- `reflect.Value.Index` on a slice value; panics when out of range. -/
def goIndex : GoVal → Nat → Except String GoVal
  | GoVal.vslice xs, i =>
      match xs.get? i with
      | some v => Except.ok v
      | none => Except.error "reflect: array index out of range"
  | _, _ => Except.error "reflect: call of reflect.Value.Index on non-slice value"

/-- Go slice indexing `xs[i]` with a panic when out of range. -/
def listGetN {α : Type} (xs : List α) (i : Nat) : Except String α :=
  match xs.get? i with
  | some a => Except.ok a
  | none => Except.error "runtime error: index out of range"

/-- Go slice indexing with a (possibly negative) `int` index. -/
def listGetI {α : Type} (xs : List α) (i : Int) : Except String α :=
  if 0 ≤ i then listGetN xs i.toNat
  else Except.error "runtime error: index out of range"

/-- An expected parameter stored by `Expects`: either the literal nil
interface, a literal value (compared with `reflect.DeepEqual`), the
`Anything()` matcher, or a `Matches(matchFunc)` predicate matcher whose
user function may panic (`Except.error`). -/
inductive Expect where
  | enil : Expect
  | lit : GoVal → Expect
  | anything : Expect
  | matcher : (GoVal → Except String Bool) → Expect

/-- Reports emitted through the `testing.TB` sink, in order of emission.
Each constructor corresponds to one `Errorf`/`Fatalf` format string of
the source. -/
inductive Report where
  | matchFail : Int → Int → Report
  | paramMismatch : Int → Int → Report
  | invalidParamCount : Int → Int → Int → Report
  | invalidVariadicCount : Int → Int → Int → Report
  | invalidReturnCount : Int → Int → Int → Report
  | unexpectedCalls : Int → Int → Report
  | panicRecovered : String → Report
  | fatalNeverSetup : Report
  | fatalIncomplete : Report
  | fatalStubThenMock : Report
  | fatalMockThenStub : Report
  | fatalNoCallAgain : Report
  | fatalNoSession : Report
  | fatalNegativeTimes : Int → Report
  | fatalZeroTimes : Report
deriving DecidableEq, Repr

/-- A registered side-effect callback (`generalCallback` or
`parameterizedCallback`).  The user function returns the list of
observable events it performs, or a panic message. -/
inductive Callback where
  | general : Int → (Unit → Except String (List Nat)) → Callback
  | parameterized : Int → Int → (GoVal → Except String (List Nat)) → Callback

/-- `mockEntry`: one registered expectation. -/
structure MockEntry where
  parameters : List Expect
  returns : List (Option GoVal)
  callbacks : List Callback

/-- `funcEntry`: per-target accumulated state. -/
structure FuncEntry where
  name : String
  stub : Bool
  expect : Int
  actual : Int
  nocall : Bool
  verified : Bool
  mocks : List MockEntry

/-- The declared shape of the mocked function: return types and
variadicity (what the dispatcher reads off `funcType`). -/
structure FuncType where
  outs : List GoType
  variadic : Bool

/-- `doComparison`: compare one expected value against one actual value.
Returns the parameter-mismatch reports emitted and `some msg` when the
comparison panicked (predicate matcher panic, or `IsNil` on a
non-nilable kind). -/
def doComparison (calls : Int) (index : Int) (expect : Expect) (actual : GoVal) :
    List Report × Option String :=
  match expect with
  | Expect.anything => ([], none)
  | Expect.matcher f =>
      match f actual with
      | Except.error m => ([], some m)
      | Except.ok true => ([], none)
      | Except.ok false => ([Report.matchFail calls index], none)
  | Expect.enil =>
      if goIsNilable actual then
        if goIsNil actual then ([], none)
        else ([Report.paramMismatch calls index], none)
      else ([], some "reflect: call of reflect.Value.IsNil on non-nilable value")
  | Expect.lit v =>
      if goDeepEqual actual v then ([], none)
      else ([Report.paramMismatch calls index], none)

/-- The position-indexed loop of `compareNormalParameters` (1-based
positions); a panic aborts the loop but keeps earlier reports. -/
def compareParamsLoop (calls : Int) (pos : Int) :
    List Expect → List GoVal → List Report × Option String
  | _, [] => ([], none)
  | [], _ :: _ => ([], none)
  | ex :: exs, a :: bs =>
      match doComparison calls pos ex a with
      | (rs, some m) => (rs, some m)
      | (rs, none) =>
          let r2 := compareParamsLoop calls (pos + 1) exs bs
          (rs ++ r2.1, r2.2)

/-- `compareNormalParameters`. -/
def compareNormalParameters (calls : Int) (expects : List Expect)
    (actuals : List GoVal) : List Report × Option String :=
  if expects.length ≠ actuals.length then
    ([Report.invalidParamCount calls (expects.length : Int) (actuals.length : Int)], none)
  else compareParamsLoop calls 1 expects actuals

/-- The inner loop of `compareVariadicParameters`: compare the trailing
expected values (from the variadic position onward, all reported at the
same 1-based position `pos`) against the elements of the actual
variadic slice, starting at offset `off`. -/
def variadicInner (calls : Int) (pos : Int) (a : GoVal) :
    List Expect → Nat → List Report × Option String
  | [], _ => ([], none)
  | ex :: exs, off =>
      match goIndex a off with
      | Except.error m => ([], some m)
      | Except.ok item =>
          match doComparison calls pos ex item with
          | (rs, some m) => (rs, some m)
          | (rs, none) =>
              let r2 := variadicInner calls pos a exs (off + 1)
              (rs ++ r2.1, r2.2)

/-- The outer loop of `compareVariadicParameters` over the actual
arguments: positions before the last are compared one by one against
`expects[index]` (Go indexing, panics when out of range); the last
actual is the variadic slice. -/
def compareVariadicAux (calls : Int) (expects : List Expect) (total : Nat) :
    Nat → List GoVal → List Report × Option String
  | _, [] => ([], none)
  | idx, a :: rest =>
      if idx ≠ total - 1 then
        match listGetN expects idx with
        | Except.error m => ([], some m)
        | Except.ok ex =>
            match doComparison calls ((idx : Int) + 1) ex a with
            | (rs, some m) => (rs, some m)
            | (rs, none) =>
                let r2 := compareVariadicAux calls expects total (idx + 1) rest
                (rs ++ r2.1, r2.2)
      else
        match goLen a with
        | Except.error m => ([], some m)
        | Except.ok len =>
            if len ≠ (expects.length : Int) - (idx : Int) then
              ([Report.invalidVariadicCount calls
                  ((expects.length : Int) - (idx : Int)) len], none)
            else variadicInner calls ((idx : Int) + 1) a (expects.drop idx) 0

/-- `compareVariadicParameters`. -/
def compareVariadicParameters (calls : Int) (expects : List Expect)
    (actuals : List GoVal) : List Report × Option String :=
  compareVariadicAux calls expects actuals.length 0 actuals

/-- `returnZeros`: one zero value per declared return slot. -/
def returnZeros (ft : FuncType) : List GoVal :=
  ft.outs.map zeroOf

/-- The element loop of `constructReturns` (lengths already equal):
each nil stored return becomes the declared type's zero value. -/
def constructRets : List GoType → List (Option GoVal) → List GoVal
  | _, [] => []
  | [], _ :: _ => []
  | t :: ts, r :: rs =>
      (match r with
       | none => zeroOf t
       | some v => v) :: constructRets ts rs

/-- `constructReturns`: arity check then nil-to-zero substitution. -/
def constructReturns (calls : Int) (ft : FuncType) (returns : List (Option GoVal)) :
    List Report × List GoVal :=
  if (ft.outs.length : Int) ≠ (returns.length : Int) then
    ([Report.invalidReturnCount calls (ft.outs.length : Int) (returns.length : Int)],
     returnZeros ft)
  else ([], constructRets ft.outs returns)

/-- `execute` on a callback (`generalCallback.execute` /
`parameterizedCallback.execute`): events performed, or a panic. -/
def executeCallback (c : Callback) (callIndex : Int) (paramIndex : Int)
    (paramValue : GoVal) : List Nat × Option String :=
  match c with
  | Callback.general ci f =>
      if ci > 0 ∧ ci ≠ callIndex then ([], none)
      else
        match f () with
        | Except.ok evs => (evs, none)
        | Except.error m => ([], some m)
  | Callback.parameterized ci pi f =>
      if ci > 0 ∧ ci ≠ callIndex then ([], none)
      else if pi ≠ paramIndex then ([], none)
      else
        match f paramValue with
        | Except.ok evs => (evs, none)
        | Except.error m => ([], some m)

/-- The per-argument loop run for a non-general callback
(`callback.execute(entry.actual, paramIndex+1, arg.Interface())`). -/
def runParamLoop (c : Callback) (callIndex : Int) :
    Int → List GoVal → List Nat × Option String
  | _, [] => ([], none)
  | pos, a :: rest =>
      match executeCallback c callIndex pos a with
      | (evs, some m) => (evs, some m)
      | (evs, none) =>
          let r2 := runParamLoop c callIndex (pos + 1) rest
          (evs ++ r2.1, r2.2)

/-- The callback loop of the dispatcher: a general callback is executed
once with paramIndex 0; any other callback is executed once per
argument with 1-based paramIndex. -/
def runCallbacks (callIndex : Int) (args : List GoVal) :
    List Callback → List Nat × Option String
  | [] => ([], none)
  | c :: cs =>
      let step :=
        match c with
        | Callback.general _ _ => executeCallback c callIndex 0 GoVal.vnil
        | Callback.parameterized _ _ _ => runParamLoop c callIndex 1 args
      match step with
      | (evs, some m) => (evs, some m)
      | (evs, none) =>
          let r2 := runCallbacks callIndex args cs
          (evs ++ r2.1, r2.2)

/-- Result of one dispatched call: updated entry, reports emitted (in
order), side-effect events performed, result values of the closure, and
`pan = some msg` when the body panicked (before `recover`). -/
structure DispatchRes where
  entry : FuncEntry
  reports : List Report
  events : List Nat
  results : List GoVal
  pan : Option String

/-- The tail of the dispatcher after call-count handling: select
`entry.mocks[entry.actual-1]`, compare parameters unless stubbing, run
callbacks, construct returns. -/
def dispatchSelect (ft : FuncType) (e : FuncEntry) (args : List GoVal) : DispatchRes :=
  match listGetI e.mocks (e.actual - 1) with
  | Except.error m =>
      { entry := e, reports := [], events := [], results := [], pan := some m }
  | Except.ok mock =>
      let cmp :=
        if e.stub then ([], none)
        else if ft.variadic then compareVariadicParameters e.actual mock.parameters args
        else compareNormalParameters e.actual mock.parameters args
      match cmp with
      | (rs, some m) =>
          { entry := e, reports := rs, events := [], results := [], pan := some m }
      | (rs, none) =>
          match runCallbacks e.actual args mock.callbacks with
          | (evs, some m) =>
              { entry := e, reports := rs, events := evs, results := [], pan := some m }
          | (evs, none) =>
              let cr := constructReturns e.actual ft mock.returns
              { entry := e, reports := rs ++ cr.1, events := evs,
                results := cr.2, pan := none }

/-- The body of the closure built by `makeFunc` (everything between the
deferred `recover` and the return): increment `actual`, handle
call-count overflow (report for mocks, clamp for stubs), then dispatch. -/
def makeFuncBody (ft : FuncType) (e0 : FuncEntry) (args : List GoVal) : DispatchRes :=
  let e1 : FuncEntry := { e0 with actual := e0.actual + 1 }
  if e1.actual > e1.expect ∨ e1.actual > (e1.mocks.length : Int) then
    if e1.stub then
      dispatchSelect ft { e1 with actual := (e1.mocks.length : Int) } args
    else
      { entry := { e1 with verified := true },
        reports := [Report.unexpectedCalls e1.expect e1.actual],
        events := [], results := returnZeros ft, pan := none }
  else dispatchSelect ft e1 args

/-- One dispatched call as observed outside the closure: a panic in the
body is recovered (`m.recover`), reported last, and the closure returns
the nil result slice (no values). -/
def makeFuncCall (ft : FuncType) (e : FuncEntry) (args : List GoVal) : DispatchRes :=
  let r := makeFuncBody ft e args
  match r.pan with
  | none => r
  | some m =>
      { entry := r.entry, reports := r.reports ++ [Report.panicRecovered m],
        events := r.events, results := [], pan := none }

/-- A sequence of dispatched calls: final entry, concatenated reports,
concatenated events. -/
def dispatchN (ft : FuncType) (e : FuncEntry) :
    List (List GoVal) → FuncEntry × List Report × List Nat
  | [] => (e, [], [])
  | args :: rest =>
      let r := makeFuncCall ft e args
      let r2 := dispatchN ft r.entry rest
      (r2.1, r.reports ++ r2.2.1, r.events ++ r2.2.2)

/-- The registry / builder state of `mocker`: the map from target
identity (`funcPtr`, an opaque `Nat` key) to its `funcEntry`, modelled
as an association list, plus the builder session pointers `current`
(identity of the entry under construction; in the source a pointer to
the entry that is always also stored in `entries`) and `temp` (the open
`mockEntry`). -/
structure MockerState where
  entries : List (Nat × FuncEntry)
  current : Option Nat
  temp : Option MockEntry

/-- The fresh `mockEntry` (`&mockEntry{}`) opened by `setup` and seeded
by `NotCalled`. -/
def emptyMock : MockEntry :=
  { parameters := [], returns := [], callbacks := [] }

/-- Go map indexing `m.entries[funcPtr]` on the association-list model. -/
def lookupEntry (p : Nat) : List (Nat × FuncEntry) → Option FuncEntry
  | [] => none
  | (k, v) :: l => if k = p then some v else lookupEntry p l

/-- Update the entry stored under key `p` (the model of mutating
through the `m.current` pointer, which always aliases the map slot). -/
def updateEntry (p : Nat) (f : FuncEntry → FuncEntry) :
    List (Nat × FuncEntry) → List (Nat × FuncEntry) :=
  List.map (fun q => if q.1 = p then (q.1, f q.2) else q)

/-- `setup`: open a builder session for the target, creating its entry
on first registration; fatal when a session is still open, when modes
are mixed, or when the target was finalized as `NotCalled`. -/
def setup (name : String) (stub : Bool) (funcPtr : Nat) (s : MockerState) :
    MockerState × List Report :=
  if s.current.isSome ∨ s.temp.isSome then (s, [Report.fatalIncomplete])
  else
    match lookupEntry funcPtr s.entries with
    | some e =>
        if e.stub ≠ stub then
          (s, [if e.stub then Report.fatalStubThenMock else Report.fatalMockThenStub])
        else if e.nocall then (s, [Report.fatalNoCallAgain])
        else ({ s with current := some funcPtr, temp := some emptyMock }, [])
    | none =>
        let e : FuncEntry :=
          { name := name, stub := stub, expect := 0, actual := 0,
            nocall := false, verified := false, mocks := [] }
        ({ s with entries := s.entries ++ [(funcPtr, e)],
                  current := some funcPtr, temp := some emptyMock }, [])

/-- `Expects`: store the expected parameters on the open expectation. -/
def Expects (parameters : List Expect) (s : MockerState) : MockerState × List Report :=
  match s.current, s.temp with
  | some _, some t =>
      ({ s with temp := some { t with parameters := parameters } }, [])
  | _, _ => (s, [Report.fatalNoSession])

/-- `Returns`: store the return values on the open expectation. -/
def Returns (values : List (Option GoVal)) (s : MockerState) : MockerState × List Report :=
  match s.current, s.temp with
  | some _, some t =>
      ({ s with temp := some { t with returns := values } }, [])
  | _, _ => (s, [Report.fatalNoSession])

/-- `SideEffects`: append callbacks to the open expectation. -/
def SideEffects (callbacks : List Callback) (s : MockerState) : MockerState × List Report :=
  match s.current, s.temp with
  | some _, some t =>
      ({ s with temp := some { t with callbacks := t.callbacks ++ callbacks } }, [])
  | _, _ => (s, [Report.fatalNoSession])

/-- `NotCalled`: finalize the current session as must-not-be-called:
`expect := 0`, exactly one empty expectation, entry no longer
registrable, session closed. -/
def NotCalled (s : MockerState) : MockerState × List Report :=
  match s.current, s.temp with
  | some p, some _ =>
      ({ s with
          entries := updateEntry p
            (fun e => { e with nocall := true, expect := 0, mocks := [emptyMock] })
            s.entries,
          temp := none, current := none }, [])
  | _, _ => (s, [Report.fatalNoSession])

/-- `Times`: finalize the current session by appending `count` copies
of the open expectation and adding `count` to `expect`; fatal (and a
no-op) when no session is open, when `count < 0`, or when `count = 0`. -/
def Times (count : Int) (s : MockerState) : MockerState × List Report :=
  match s.current, s.temp with
  | some p, some t =>
      if count < 0 then (s, [Report.fatalNegativeTimes count])
      else if count = 0 then (s, [Report.fatalZeroTimes])
      else
        ({ s with
            entries := updateEntry p
              (fun e => { e with expect := e.expect + count,
                                 mocks := e.mocks ++ List.replicate count.toNat t })
              s.entries,
            temp := none, current := none }, [])
  | _, _ => (s, [Report.fatalNoSession])

/-- `Once`, defined in the source as `m.Times(1)`. -/
def Once (s : MockerState) : MockerState × List Report :=
  Times 1 s

/-- `Twice`, defined in the source as `m.Times(2)`. -/
def Twice (s : MockerState) : MockerState × List Report :=
  Times 2 s

/-- The per-entry teardown check of `verifyAll`: entries already
reported are skipped, stub entries are exempt from count verification. -/
def verifyEntry (e : FuncEntry) : List Report :=
  if e.verified then []
  else if e.stub = false ∧ e.expect ≠ e.actual then
    [Report.unexpectedCalls e.expect e.actual]
  else []

/-- `verifyAll`: teardown reconciliation over every entry, then the
registry is cleared (the external patch reset is outside the model).
Go iterates the map in unspecified order; the model fixes insertion
order, which no claim depends on. -/
def verifyAll (s : MockerState) : MockerState × List Report :=
  ({ s with entries := [] }, (s.entries.map (fun q => verifyEntry q.2)).flatten)

/-! ## Helper lemmas -/

mutual

/-- `reflect.DeepEqual` is reflexive on the modelled values. -/
theorem goDeepEqual_rfl : ∀ a : GoVal, goDeepEqual a a = true
  | GoVal.vnil => rfl
  | GoVal.vint _ => by simp [goDeepEqual]
  | GoVal.vstr _ => by simp [goDeepEqual]
  | GoVal.vbool _ => by simp [goDeepEqual]
  | GoVal.vptr _ => by simp [goDeepEqual]
  | GoVal.vslice xs => by simp [goDeepEqual, goDeepEqualList_rfl xs]

theorem goDeepEqualList_rfl : ∀ xs : List GoVal, goDeepEqualList xs xs = true
  | [] => rfl
  | x :: xs => by simp [goDeepEqualList, goDeepEqual_rfl x, goDeepEqualList_rfl xs]

end

theorem listGetI_coe {α : Type} (xs : List α) (n : Nat) :
    listGetI xs (n : Int) = listGetN xs n := by
  simp [listGetI, Int.toNat_natCast]

theorem listGetN_of_get? {α : Type} {xs : List α} {n : Nat} {a : α}
    (h : xs.get? n = some a) : listGetN xs n = Except.ok a := by
  unfold listGetN
  rw [h]

theorem lookup_updateEntry (p : Nat) (f : FuncEntry → FuncEntry) :
    ∀ l : List (Nat × FuncEntry),
      lookupEntry p (updateEntry p f l) = (lookupEntry p l).map f := by
  intro l
  induction l with
  | nil => rfl
  | cons q l ih =>
      obtain ⟨k, v⟩ := q
      simp only [updateEntry, List.map_cons] at ih ⊢
      by_cases h : k = p
      · subst h
        rw [if_pos rfl]
        simp [lookupEntry]
      · rw [if_neg h]
        simp only [lookupEntry, if_neg h]
        exact ih

/-- `getLast?` as an index into the last position. -/
theorem listGetI_last {α : Type} {xs : List α} {a : α}
    (h : xs.getLast? = some a) :
    listGetI xs ((xs.length : Int) - 1) = Except.ok a := by
  have hne : xs ≠ [] := by
    intro hnil
    rw [hnil] at h
    simp at h
  have hlen : 1 ≤ xs.length := by
    cases xs with
    | nil => exact absurd rfl hne
    | cons x l => simp
  have hcast : (xs.length : Int) - 1 = ((xs.length - 1 : Nat) : Int) := by
    omega
  rw [hcast, listGetI_coe]
  apply listGetN_of_get?
  rw [List.getLast?_eq_getLast xs hne] at h
  rw [List.get?_eq_get (by omega : xs.length - 1 < xs.length)]
  rw [List.getLast_eq_get] at h
  simpa using h

/-- The dispatcher's behavior on a call-count overflow in non-stub
mode, shared by several results below. -/
theorem makeFuncCall_nonstub_overflow
    (ft : FuncType) (e : FuncEntry) (args : List GoVal)
    (hstub : e.stub = false)
    (hover : e.actual + 1 > e.expect ∨ e.actual + 1 > (e.mocks.length : Int)) :
    makeFuncCall ft e args =
      { entry := { e with actual := e.actual + 1, verified := true },
        reports := [Report.unexpectedCalls e.expect (e.actual + 1)],
        events := [], results := returnZeros ft, pan := none } := by
  simp only [makeFuncCall, makeFuncBody]
  rw [if_pos hover]
  simp [hstub]

/-! ## Claim theorems -/

/-- C2: for a Mock/NotCalled-mode target (stub = false), when a call
makes `actual` exceed `expect` or the number of registered
expectations, the dispatcher reports exactly one call-count violation
with the expected and actual counts, sets the already-reported flag
(`verified`), returns the zero value for every declared return slot,
and runs no side effect (no events) and no parameter check (no other
report). -/
theorem C2_mock_overflow_reports_and_returns_zeros
    (ft : FuncType) (e : FuncEntry) (args : List GoVal)
    (hstub : e.stub = false)
    (hover : e.actual + 1 > e.expect ∨ e.actual + 1 > (e.mocks.length : Int)) :
    makeFuncCall ft e args =
      { entry := { e with actual := e.actual + 1, verified := true },
        reports := [Report.unexpectedCalls e.expect (e.actual + 1)],
        events := [], results := returnZeros ft, pan := none } :=
  makeFuncCall_nonstub_overflow ft e args hstub hover

/-- Witness for C2: a mock set up but never finalized (expect 0) and
called once reports expected 0, actual 1 and returns the zero int. -/
theorem C2_witness :
    makeFuncCall ⟨[GoType.tInt], false⟩ ⟨"f", false, 0, 0, false, false, []⟩ []
      = ⟨⟨"f", false, 0, 1, false, true, []⟩,
         [Report.unexpectedCalls 0 1], [], [GoVal.vint 0], none⟩ :=
  C2_mock_overflow_reports_and_returns_zeros
    ⟨[GoType.tInt], false⟩ ⟨"f", false, 0, 0, false, false, []⟩ [] rfl
    (Or.inl (by decide))

/-- C5: with an open builder session, `Times n` fails fatally (with the
negative-count report) when `n < 0`, fails fatally with the distinct
use-NotCalled report when `n = 0`, and for `n ≥ 1` appends exactly `n`
copies of the open expectation, adds `n` to the expected count, and
closes the session (`current` and `temp` both cleared); `Once` is
`Times 1` and `Twice` is `Times 2`. -/
theorem C5_times_appends_n_copies_and_closes
    (s : MockerState) (p : Nat) (t : MockEntry) (e : FuncEntry) (count : Int)
    (hc : s.current = some p) (ht : s.temp = some t)
    (he : lookupEntry p s.entries = some e) :
    (count < 0 → Times count s = (s, [Report.fatalNegativeTimes count])) ∧
    (count = 0 → Times count s = (s, [Report.fatalZeroTimes])) ∧
    (1 ≤ count →
      (Times count s).2 = [] ∧
      lookupEntry p (Times count s).1.entries
        = some { e with expect := e.expect + count,
                        mocks := e.mocks ++ List.replicate count.toNat t } ∧
      (Times count s).1.current = none ∧ (Times count s).1.temp = none) ∧
    Once s = Times 1 s ∧ Twice s = Times 2 s := by
  refine ⟨?_, ?_, ?_, rfl, rfl⟩
  · intro h
    simp only [Times, hc, ht]
    rw [if_pos h]
  · intro h
    simp only [Times, hc, ht]
    rw [if_neg (by omega), if_pos h]
  · intro h
    simp only [Times, hc, ht]
    rw [if_neg (by omega), if_neg (by omega)]
    refine ⟨rfl, ?_, rfl, rfl⟩
    simp only [lookup_updateEntry, he]
    rfl

/-- Witness for C5: a freshly set-up mock target finalized with
`Times 2` ends with two copies of the open expectation, expected count
2, and a closed session; the degenerate counts fail with their two
distinct fatal reports. -/
theorem C5_witness :
    (Times (-1) ((setup "f" false 7 ⟨[], none, none⟩).1)
        = ((setup "f" false 7 ⟨[], none, none⟩).1, [Report.fatalNegativeTimes (-1)])) ∧
    (Times 0 ((setup "f" false 7 ⟨[], none, none⟩).1)
        = ((setup "f" false 7 ⟨[], none, none⟩).1, [Report.fatalZeroTimes])) ∧
    ((Times 2 ((setup "f" false 7 ⟨[], none, none⟩).1)).2 = [] ∧
      lookupEntry 7 ((Times 2 ((setup "f" false 7 ⟨[], none, none⟩).1)).1.entries)
        = some ⟨"f", false, 2, 0, false, false, [emptyMock, emptyMock]⟩ ∧
      (Times 2 ((setup "f" false 7 ⟨[], none, none⟩).1)).1.current = none ∧
      (Times 2 ((setup "f" false 7 ⟨[], none, none⟩).1)).1.temp = none) := by
  have h1 := C5_times_appends_n_copies_and_closes
    ((setup "f" false 7 ⟨[], none, none⟩).1) 7 emptyMock
    ⟨"f", false, 0, 0, false, false, []⟩ (-1) rfl rfl rfl
  have h2 := C5_times_appends_n_copies_and_closes
    ((setup "f" false 7 ⟨[], none, none⟩).1) 7 emptyMock
    ⟨"f", false, 0, 0, false, false, []⟩ 0 rfl rfl rfl
  have h3 := C5_times_appends_n_copies_and_closes
    ((setup "f" false 7 ⟨[], none, none⟩).1) 7 emptyMock
    ⟨"f", false, 0, 0, false, false, []⟩ 2 rfl rfl rfl
  exact ⟨h1.1 (by decide), h2.2.1 rfl, h3.2.2.1 (by decide)⟩

/-- C10: calling `Times` with a non-positive count while a session is
open reports the fatal error but changes nothing — entries, the
current-entry pointer and the open expectation all stay as they were —
so a subsequent `Mock`/`Stub` (which runs `setup`) reports the
former-setup-incomplete fatal error and again changes nothing, instead
of opening a new session. -/
theorem C10_failed_times_leaves_session_open
    (s : MockerState) (p : Nat) (t : MockEntry) (count : Int)
    (hc : s.current = some p) (ht : s.temp = some t) (hle : count ≤ 0) :
    (Times count s).1 = s ∧
    (Times count s).2
      = [if count < 0 then Report.fatalNegativeTimes count
         else Report.fatalZeroTimes] ∧
    ∀ (name : String) (stub : Bool) (q : Nat),
      setup name stub q (Times count s).1
        = ((Times count s).1, [Report.fatalIncomplete]) := by
  have hbase : Times count s = (s, [if count < 0 then Report.fatalNegativeTimes count
      else Report.fatalZeroTimes]) := by
    simp only [Times, hc, ht]
    by_cases h : count < 0
    · rw [if_pos h, if_pos h]
    · rw [if_neg h, if_pos (by omega), if_neg h]
  refine ⟨by rw [hbase], by rw [hbase], ?_⟩
  intro name stub q
  rw [hbase]
  simp [setup, hc]

/-- Witness for C10: after `Times 0` fails on an open session, a
subsequent setup call reports the incomplete-former-setup fatal. -/
theorem C10_witness :
    ((Times 0 ((setup "f" false 7 ⟨[], none, none⟩).1)).1
        = (setup "f" false 7 ⟨[], none, none⟩).1) ∧
    ((Times 0 ((setup "f" false 7 ⟨[], none, none⟩).1)).2
        = [if (0 : Int) < 0 then Report.fatalNegativeTimes 0 else Report.fatalZeroTimes]) ∧
    ∀ (name : String) (stub : Bool) (q : Nat),
      setup name stub q (Times 0 ((setup "f" false 7 ⟨[], none, none⟩).1)).1
        = ((Times 0 ((setup "f" false 7 ⟨[], none, none⟩).1)).1,
           [Report.fatalIncomplete]) :=
  C10_failed_times_leaves_session_open
    ((setup "f" false 7 ⟨[], none, none⟩).1) 7 emptyMock 0 rfl rfl (by decide)

/-- C1: for a Mock-mode target, the k-th intercepted call (1 ≤ k ≤
registered count) is matched against the k-th registered expectation
`mocks[k-1]`: its arguments are checked against that expectation's
parameter list (normal or variadic comparison) and the call returns
that expectation's registered returns with every nil replaced by the
zero value of the declared return type (`constructRets`), provided the
user-supplied matchers and callbacks of that expectation do not panic. -/
theorem C1_kth_call_uses_kth_expectation
    (ft : FuncType) (e : FuncEntry) (args : List GoVal) (k : Nat)
    (mk : MockEntry) (rs : List Report) (evs : List Nat)
    (hstub : e.stub = false)
    (hk : 1 ≤ k)
    (hact : e.actual + 1 = (k : Int))
    (hkE : (k : Int) ≤ e.expect)
    (hkM : k ≤ e.mocks.length)
    (hmk : e.mocks.get? (k - 1) = some mk)
    (hcmp : (if ft.variadic then compareVariadicParameters (k : Int) mk.parameters args
             else compareNormalParameters (k : Int) mk.parameters args) = (rs, none))
    (hcb : runCallbacks (k : Int) args mk.callbacks = (evs, none))
    (hret : mk.returns.length = ft.outs.length) :
    makeFuncCall ft e args =
      { entry := { e with actual := (k : Int) },
        reports := rs, events := evs,
        results := constructRets ft.outs mk.returns, pan := none } := by
  have h0 : ¬(e.actual + 1 > e.expect ∨ e.actual + 1 > (e.mocks.length : Int)) := by
    omega
  have hg : listGetI e.mocks ((k : Int) - 1) = Except.ok mk := by
    have hcast : (k : Int) - 1 = ((k - 1 : Nat) : Int) := by omega
    rw [hcast, listGetI_coe]
    exact listGetN_of_get? hmk
  simp only [makeFuncCall, makeFuncBody]
  rw [if_neg h0]
  simp only [dispatchSelect, hact, hg, hstub]
  simp only [Bool.false_eq_true, if_false, hcmp, hcb]
  simp only [constructReturns, hret, ne_eq, not_true_eq_false, if_neg]
  simp

/-- Witness for C1: two expectations registered in order; the second
call with the second expected parameter returns the second registered
return value. -/
theorem C1_witness :
    makeFuncCall ⟨[GoType.tInt], false⟩
      ⟨"f", false, 2, 1, false, false,
        [⟨[Expect.lit (GoVal.vint 1)], [some (GoVal.vint 10)], []⟩,
         ⟨[Expect.lit (GoVal.vint 2)], [some (GoVal.vint 20)], []⟩]⟩
      [GoVal.vint 2]
      = ⟨⟨"f", false, 2, 2, false, false,
          [⟨[Expect.lit (GoVal.vint 1)], [some (GoVal.vint 10)], []⟩,
           ⟨[Expect.lit (GoVal.vint 2)], [some (GoVal.vint 20)], []⟩]⟩,
         [], [], [GoVal.vint 20], none⟩ :=
  C1_kth_call_uses_kth_expectation
    ⟨[GoType.tInt], false⟩
    ⟨"f", false, 2, 1, false, false,
      [⟨[Expect.lit (GoVal.vint 1)], [some (GoVal.vint 10)], []⟩,
       ⟨[Expect.lit (GoVal.vint 2)], [some (GoVal.vint 20)], []⟩]⟩
    [GoVal.vint 2] 2
    ⟨[Expect.lit (GoVal.vint 2)], [some (GoVal.vint 20)], []⟩ [] []
    rfl (by decide) (by decide) (by decide) (by decide) rfl (by rfl) rfl rfl

/-- C3: a Stub-mode target with at least one registered expectation,
called beyond its registered count, clamps `actual` to the number of
registered expectations and reuses the last registered expectation's
return values and side-effect set; no call-count violation is reported
at call time, and teardown verification never reports a call-count
mismatch for a stub entry. -/
theorem C3_stub_overflow_reuses_last_expectation
    (ft : FuncType) (e : FuncEntry) (args : List GoVal)
    (lastMock : MockEntry) (evs : List Nat)
    (hstub : e.stub = true)
    (hover : e.actual + 1 > e.expect ∨ e.actual + 1 > (e.mocks.length : Int))
    (hlast : e.mocks.getLast? = some lastMock)
    (hcb : runCallbacks (e.mocks.length : Int) args lastMock.callbacks = (evs, none)) :
    makeFuncCall ft e args =
      { entry := { e with actual := (e.mocks.length : Int) },
        reports := (constructReturns (e.mocks.length : Int) ft lastMock.returns).1,
        events := evs,
        results := (constructReturns (e.mocks.length : Int) ft lastMock.returns).2,
        pan := none } ∧
    (∀ x y : Int,
      Report.unexpectedCalls x y ∉ (makeFuncCall ft e args).reports) ∧
    (∀ e2 : FuncEntry, e2.stub = true → verifyEntry e2 = []) := by
  have hmain : makeFuncCall ft e args =
      { entry := { e with actual := (e.mocks.length : Int) },
        reports := (constructReturns (e.mocks.length : Int) ft lastMock.returns).1,
        events := evs,
        results := (constructReturns (e.mocks.length : Int) ft lastMock.returns).2,
        pan := none } := by
    simp only [makeFuncCall, makeFuncBody]
    rw [if_pos hover]
    simp only [dispatchSelect, hstub, if_true, listGetI_last hlast, hcb]
    simp
  refine ⟨hmain, ?_, ?_⟩
  · intro x y
    rw [hmain]
    simp only [constructReturns]
    by_cases h : ((ft.outs.length : Int) ≠ (lastMock.returns.length : Int))
    · rw [if_pos h]
      simp
    · rw [if_neg h]
      simp
  · intro e2 h2
    simp [verifyEntry, h2]

/-- Witness for C3: a stub with one registered expectation, called a
second time, reuses that expectation's return value and is exempt from
teardown count verification. -/
theorem C3_witness :
    makeFuncCall ⟨[GoType.tInt], false⟩
      ⟨"f", true, 1, 1, false, false, [⟨[], [some (GoVal.vint 42)], []⟩]⟩ []
      = ⟨⟨"f", true, 1, 1, false, false, [⟨[], [some (GoVal.vint 42)], []⟩]⟩,
         (constructReturns 1 ⟨[GoType.tInt], false⟩ [some (GoVal.vint 42)]).1,
         [],
         (constructReturns 1 ⟨[GoType.tInt], false⟩ [some (GoVal.vint 42)]).2,
         none⟩ :=
  (C3_stub_overflow_reuses_last_expectation ⟨[GoType.tInt], false⟩
    ⟨"f", true, 1, 1, false, false, [⟨[], [some (GoVal.vint 42)], []⟩]⟩ []
    ⟨[], [some (GoVal.vint 42)], []⟩ []
    rfl (Or.inl (by decide)) rfl rfl).1

/-- Controlled unfolding of `compareVariadicAux` at a fixed (non-last)
position. -/
theorem compareVariadicAux_fixed_step (calls : Int) (E : List Expect)
    (T idx : Nat) (a : GoVal) (rest : List GoVal) (h : idx ≠ T - 1) :
    compareVariadicAux calls E T idx (a :: rest)
      = match listGetN E idx with
        | Except.error m => ([], some m)
        | Except.ok ex =>
            match doComparison calls ((idx : Int) + 1) ex a with
            | (rs, some m) => (rs, some m)
            | (rs, none) =>
                let r2 := compareVariadicAux calls E T (idx + 1) rest
                (rs ++ r2.1, r2.2) := by
  rw [compareVariadicAux]
  rw [if_pos h]

/-- Controlled unfolding of `compareVariadicAux` at the last (variadic)
position. -/
theorem compareVariadicAux_last_step (calls : Int) (E : List Expect)
    (T idx : Nat) (a : GoVal) (rest : List GoVal) (h : idx = T - 1) :
    compareVariadicAux calls E T idx (a :: rest)
      = match goLen a with
        | Except.error m => ([], some m)
        | Except.ok len =>
            if len ≠ (E.length : Int) - (idx : Int) then
              ([Report.invalidVariadicCount calls
                  ((E.length : Int) - (idx : Int)) len], none)
            else variadicInner calls ((idx : Int) + 1) a (E.drop idx) 0 := by
  rw [compareVariadicAux]
  rw [if_neg (by omega)]

/-- The generic shape of the variadic-comparison loop on a length
mismatch: with `pre` the positions already consumed, the fixed
positions are compared pairwise (`compareParamsLoop`) and the final
slice-length mismatch yields exactly one report, with no per-element
comparison. -/
theorem compareVariadicAux_mismatch (calls : Int) :
    ∀ (fixed : List GoVal) (pre exFixed exTail : List Expect)
      (xs : List GoVal) (rs : List Report),
      exFixed.length = fixed.length →
      compareParamsLoop calls ((pre.length : Int) + 1) exFixed fixed = (rs, none) →
      (xs.length : Int) ≠ (exTail.length : Int) →
      compareVariadicAux calls (pre ++ exFixed ++ exTail)
          (pre.length + fixed.length + 1) pre.length (fixed ++ [GoVal.vslice xs])
        = (rs ++ [Report.invalidVariadicCount calls (exTail.length : Int)
            (xs.length : Int)], none) := by
  intro fixed
  induction fixed with
  | nil =>
      intro pre exFixed exTail xs rs hlen hcmp hmm
      have hex : exFixed = [] := List.length_eq_zero.mp hlen
      subst hex
      have hrs : rs = [] := by
        simp only [compareParamsLoop] at hcmp
        exact (Prod.mk.injEq _ _ _ _ ▸ hcmp).1.symm
      subst hrs
      simp only [List.nil_append, List.append_nil, List.length_nil, Nat.add_zero]
      rw [compareVariadicAux_last_step calls _ _ _ _ _ (by omega)]
      simp only [goLen]
      have hval : ((pre ++ exTail).length : Int) - (pre.length : Int)
          = (exTail.length : Int) := by
        simp only [List.length_append]
        push_cast
        ring
      rw [hval, if_pos hmm]
  | cons a fs ih =>
      intro pre exFixed exTail xs rs hlen hcmp hmm
      match exFixed, hlen with
      | ex :: exs, hlen =>
        simp only [compareParamsLoop] at hcmp
        rcases hres : doComparison calls ((pre.length : Int) + 1) ex a with ⟨r1, p1⟩
        rw [hres] at hcmp
        cases p1 with
        | some m => simp at hcmp
        | none =>
            rcases hrest : compareParamsLoop calls ((pre.length : Int) + 1 + 1) exs fs
              with ⟨r2, p2⟩
            rw [hrest] at hcmp
            simp only at hcmp
            have hr : rs = r1 ++ r2 := (Prod.mk.injEq _ _ _ _ ▸ hcmp).1.symm
            have hp : p2 = none := (Prod.mk.injEq _ _ _ _ ▸ hcmp).2
            subst hr
            subst hp
            have hstep := ih (pre ++ [ex]) exs exTail xs r2
              (by simpa using hlen)
              (by
                have hlen2 : ((pre ++ [ex]).length : Int) + 1
                    = (pre.length : Int) + 1 + 1 := by
                  simp only [List.length_append, List.length_cons, List.length_nil]
                  push_cast
                  ring
                rw [hlen2, hrest])
              hmm
            rw [List.cons_append]
            rw [compareVariadicAux_fixed_step calls _ _ _ _ _
              (by simp only [List.length_cons]; omega)]
            have hget : listGetN (pre ++ ex :: exs ++ exTail) pre.length
                = Except.ok ex := by
              apply listGetN_of_get?
              rw [List.append_assoc]
              have h2 : (pre ++ (ex :: exs ++ exTail)).get? pre.length
                  = (ex :: exs ++ exTail).get? (pre.length - pre.length) :=
                List.get?_append_right (le_refl pre.length)
              rw [h2]
              simp
            rw [hget]
            dsimp only
            rw [hres]
            dsimp only
            have hgoal : compareVariadicAux calls (pre ++ ex :: exs ++ exTail)
                (pre.length + (a :: fs).length + 1) (pre.length + 1)
                (fs ++ [GoVal.vslice xs])
                = (r2 ++ [Report.invalidVariadicCount calls (exTail.length : Int)
                    (xs.length : Int)], none) := by
              have hlist : pre ++ ex :: exs ++ exTail
                  = (pre ++ [ex]) ++ exs ++ exTail := by simp
              have hcast : pre.length + (a :: fs).length + 1
                  = (pre ++ [ex]).length + fs.length + 1 := by
                simp only [List.length_append, List.length_cons, List.length_nil]
                omega
              have hidx : pre.length + 1 = (pre ++ [ex]).length := by
                simp only [List.length_append, List.length_cons, List.length_nil]
              rw [hlist, hcast, hidx]
              exact hstep
            rw [hgoal]
            simp

/-- C6: for a variadic Mock-mode comparison, every fixed position is
compared individually (`compareParamsLoop` over the fixed prefix), and
when the number of remaining expected values differs from the actual
variadic slice length, exactly one invalid-number-of-variadic-parameters
report is produced — expected = remaining expected values, actual =
slice length — with no per-element comparison; in particular
`Expects(x, y, z)` against a call `f(x, y, z)` of `f(a, ...b)` reports
nothing, while `f(x, y)` reports expected 2, actual 1. -/
theorem C6_variadic_fixed_then_length_check :
    (∀ (calls : Int) (exFixed exTail : List Expect) (fixed xs : List GoVal)
       (rs : List Report),
      exFixed.length = fixed.length →
      compareParamsLoop calls 1 exFixed fixed = (rs, none) →
      (xs.length : Int) ≠ (exTail.length : Int) →
      compareVariadicParameters calls (exFixed ++ exTail)
          (fixed ++ [GoVal.vslice xs])
        = (rs ++ [Report.invalidVariadicCount calls (exTail.length : Int)
            (xs.length : Int)], none)) ∧
    (∀ (calls : Int) (x y z : GoVal),
      compareVariadicParameters calls [Expect.lit x, Expect.lit y, Expect.lit z]
          [x, GoVal.vslice [y, z]] = ([], none) ∧
      compareVariadicParameters calls [Expect.lit x, Expect.lit y, Expect.lit z]
          [x, GoVal.vslice [y]]
        = ([Report.invalidVariadicCount calls 2 1], none)) := by
  constructor
  · intro calls exFixed exTail fixed xs rs hlen hcmp hmm
    have h := compareVariadicAux_mismatch calls fixed [] exFixed exTail xs rs hlen
      (by simpa using hcmp) hmm
    simp only [List.nil_append, List.length_nil, Nat.zero_add] at h
    rw [compareVariadicParameters]
    simp only [List.length_append, List.length_cons, List.length_nil, Nat.add_zero]
    exact h
  · intro calls x y z
    constructor
    · rw [compareVariadicParameters]
      simp only [List.length_cons, List.length_nil]
      rw [compareVariadicAux_fixed_step calls _ _ _ _ _ (by omega)]
      simp only [listGetN, List.get?, doComparison, goDeepEqual_rfl, if_true]
      rw [compareVariadicAux_last_step calls _ _ _ _ _ (by omega)]
      norm_num [goLen, variadicInner, goIndex, doComparison, goDeepEqual_rfl, listGetN]
    · rw [compareVariadicParameters]
      simp only [List.length_cons, List.length_nil]
      rw [compareVariadicAux_fixed_step calls _ _ _ _ _ (by omega)]
      simp only [listGetN, List.get?, doComparison, goDeepEqual_rfl, if_true]
      rw [compareVariadicAux_last_step calls _ _ _ _ _ (by omega)]
      norm_num [goLen, variadicInner, goIndex, doComparison, goDeepEqual_rfl, listGetN]

/-- Witness for C6: the concrete instance with integer values 1, 2, 3
of the claim's example, plus a mismatch instance of the general part. -/
theorem C6_witness :
    (compareVariadicParameters 1
        [Expect.lit (GoVal.vint 1), Expect.lit (GoVal.vint 2), Expect.lit (GoVal.vint 3)]
        [GoVal.vint 1, GoVal.vslice [GoVal.vint 2, GoVal.vint 3]] = ([], none)) ∧
    (compareVariadicParameters 1
        [Expect.lit (GoVal.vint 1), Expect.lit (GoVal.vint 2), Expect.lit (GoVal.vint 3)]
        [GoVal.vint 1, GoVal.vslice [GoVal.vint 2]]
      = ([Report.invalidVariadicCount 1 2 1], none)) ∧
    (compareVariadicParameters 1
        [Expect.lit (GoVal.vint 5), Expect.lit (GoVal.vint 6)]
        [GoVal.vint 5, GoVal.vslice []]
      = ([Report.invalidVariadicCount 1 1 0], none)) := by
  refine ⟨(C6_variadic_fixed_then_length_check.2 1 (GoVal.vint 1) (GoVal.vint 2)
    (GoVal.vint 3)).1,
    (C6_variadic_fixed_then_length_check.2 1 (GoVal.vint 1) (GoVal.vint 2)
      (GoVal.vint 3)).2, ?_⟩
  have h := C6_variadic_fixed_then_length_check.1 1
    [Expect.lit (GoVal.vint 5)] [Expect.lit (GoVal.vint 6)]
    [GoVal.vint 5] [] [] rfl (by decide) (by decide)
  exact h

/-- `dispatchSelect` never touches the entry it is given. -/
theorem dispatchSelect_entry (ft : FuncType) (e : FuncEntry) (args : List GoVal) :
    (dispatchSelect ft e args).entry = e := by
  rw [dispatchSelect]
  cases hg : listGetI e.mocks (e.actual - 1) with
  | error m => rfl
  | ok mock =>
      rcases hcmp : (if e.stub then (([], none) : List Report × Option String)
          else if ft.variadic then compareVariadicParameters e.actual mock.parameters args
          else compareNormalParameters e.actual mock.parameters args) with ⟨rs, p⟩
      dsimp only
      rw [hcmp]
      cases p with
      | some m => rfl
      | none =>
          rcases hcb : runCallbacks e.actual args mock.callbacks with ⟨evs, p2⟩
          cases p2 <;> rfl

/-- The recover wrapper does not change the entry. -/
theorem makeFuncCall_entry_eq_body (ft : FuncType) (e : FuncEntry) (args : List GoVal) :
    (makeFuncCall ft e args).entry = (makeFuncBody ft e args).entry := by
  simp only [makeFuncCall]
  cases h : (makeFuncBody ft e args).pan <;> simp [h]

/-- How one dispatched call updates the entry: `actual` is incremented,
except that a stub-mode overflow clamps it to the number of registered
expectations; `stub`, `expect` and `mocks` are never changed. -/
theorem makeFuncCall_entry_spec (ft : FuncType) (e : FuncEntry) (args : List GoVal) :
    (makeFuncCall ft e args).entry.stub = e.stub ∧
    (makeFuncCall ft e args).entry.expect = e.expect ∧
    (makeFuncCall ft e args).entry.mocks = e.mocks ∧
    (makeFuncCall ft e args).entry.actual
      = if e.stub = true ∧
          (e.actual + 1 > e.expect ∨ e.actual + 1 > (e.mocks.length : Int))
        then (e.mocks.length : Int) else e.actual + 1 := by
  rw [makeFuncCall_entry_eq_body]
  simp only [makeFuncBody]
  by_cases hover : e.actual + 1 > e.expect ∨ e.actual + 1 > (e.mocks.length : Int)
  · rw [if_pos hover]
    by_cases hs : e.stub
    · rw [if_pos hs]
      rw [dispatchSelect_entry]
      simp [hs, hover]
    · rw [if_neg hs]
      simp only [Bool.not_eq_true] at hs
      simp [hs, hover]
  · rw [if_neg hover]
    rw [dispatchSelect_entry]
    simp [hover]

/-- C7 counterexample: with a nil expected value and an `int` actual
argument (a non-nilable kind), the comparison does not report a
parameter mismatch even though the actual value 1 is not nil — it
panics in `reflect.Value.IsNil` instead. -/
theorem C7_counterexample :
    doComparison 1 1 Expect.enil (GoVal.vint 1)
      = ([], some "reflect: call of reflect.Value.IsNil on non-nilable value") ∧
    (doComparison 1 1 Expect.enil (GoVal.vint 1)).1 ≠ [Report.paramMismatch 1 1] := by
  exact ⟨rfl, by decide⟩

/-- C7 amended: for a nil expected value, a parameter mismatch is
reported iff the actual argument is not nil, provided the actual
argument is of a nilable kind (pointer, slice, map, chan, func,
interface); for any other declared parameter kind the comparison
panics in `reflect.Value.IsNil` (the dispatcher's recover then turns
this into a panic report). -/
theorem C7_nil_expectation_nilable_kinds (calls index : Int) (v : GoVal) :
    (goIsNilable v = true →
      doComparison calls index Expect.enil v
        = (if goIsNil v then [] else [Report.paramMismatch calls index], none)) ∧
    (goIsNilable v = false →
      doComparison calls index Expect.enil v
        = ([], some "reflect: call of reflect.Value.IsNil on non-nilable value")) := by
  constructor
  · intro h
    simp only [doComparison, h, if_true]
    by_cases h2 : goIsNil v
    · simp [h2]
    · simp [h2]
  · intro h
    simp [doComparison, h]

/-- Witness for the amended C7: a non-nil pointer actual is reported as
a mismatch; an `int` actual (even the zero value 0) panics. -/
theorem C7_witness :
    doComparison 1 2 Expect.enil (GoVal.vptr 5)
      = (if goIsNil (GoVal.vptr 5) then []
         else [Report.paramMismatch 1 2], none) ∧
    doComparison 1 2 Expect.enil (GoVal.vint 0)
      = ([], some "reflect: call of reflect.Value.IsNil on non-nilable value") :=
  ⟨(C7_nil_expectation_nilable_kinds 1 2 (GoVal.vptr 5)).1 rfl,
   (C7_nil_expectation_nilable_kinds 1 2 (GoVal.vint 0)).2 rfl⟩

/-- C8 counterexample: a stub with one registered expectation
(`expect = 1`) receives two intercepted calls, after which its
`actual` count is 1, not 2 — the overflowing call clamped it back to
the number of registered expectations. -/
theorem C8_counterexample :
    (dispatchN ⟨[], false⟩
        ⟨"f", true, 1, 0, false, false, [⟨[], [], []⟩]⟩ [[], []]).1.actual = 1 ∧
    (1 : Int) ≠ 2 := by
  exact ⟨rfl, by decide⟩

/-- C8 amended: `actual` is incremented exactly once per intercepted
call for Mock/NotCalled-mode entries — after k calls it equals k — but
in Stub mode an overflowing call clamps it to the number of registered
expectations, so for a stub whose `expect` equals its number of
registered expectations it equals `min k (number of expectations)`. -/
theorem C8_actual_count_per_mode :
    (∀ (ft : FuncType) (e : FuncEntry) (argsList : List (List GoVal)),
      e.stub = false →
      (dispatchN ft e argsList).1.actual = e.actual + (argsList.length : Int)) ∧
    (∀ (ft : FuncType) (e : FuncEntry) (argsList : List (List GoVal)),
      e.stub = true →
      e.expect = (e.mocks.length : Int) →
      e.actual ≤ (e.mocks.length : Int) →
      (dispatchN ft e argsList).1.actual
        = min (e.actual + (argsList.length : Int)) ((e.mocks.length : Int))) := by
  constructor
  · intro ft e argsList
    induction argsList generalizing e with
    | nil =>
        intro h
        simp [dispatchN]
    | cons args rest ih =>
        intro h
        obtain ⟨h1, h2, h3, h4⟩ := makeFuncCall_entry_spec ft e args
        simp only [dispatchN]
        rw [ih ((makeFuncCall ft e args).entry) (by rw [h1]; exact h)]
        rw [h4]
        rw [if_neg (by simp [h])]
        simp only [List.length_cons]
        push_cast
        ring
  · intro ft e argsList
    induction argsList generalizing e with
    | nil =>
        intro h hlen hle
        simp only [dispatchN]
        simp only [List.length_nil, Nat.cast_zero, Int.add_zero]
        omega
    | cons args rest ih =>
        intro h hlen hle
        obtain ⟨h1, h2, h3, h4⟩ := makeFuncCall_entry_spec ft e args
        simp only [dispatchN]
        rw [ih ((makeFuncCall ft e args).entry) (by rw [h1]; exact h)
          (by rw [h2, h3]; exact hlen)
          (by
            rw [h4, h3]
            simp only [h, true_and]
            split <;> omega)]
        rw [h3, h4]
        simp only [h, true_and, List.length_cons]
        rw [hlen]
        split <;> (push_cast; omega)

/-- Witness for the amended C8: a mock called three times ends with
`actual = 3`; a one-expectation stub called twice ends with
`actual = 1`. -/
theorem C8_witness :
    (dispatchN ⟨[], false⟩ ⟨"g", false, 2, 0, false, false, []⟩
        [[], [], []]).1.actual = 3 ∧
    (dispatchN ⟨[], false⟩ ⟨"h", true, 1, 0, false, false, [⟨[], [], []⟩]⟩
        [[], []]).1.actual = 1 := by
  constructor
  · have h := C8_actual_count_per_mode.1 ⟨[], false⟩
      ⟨"g", false, 2, 0, false, false, []⟩ [[], [], []] rfl
    simpa using h
  · have h := C8_actual_count_per_mode.2 ⟨[], false⟩
      ⟨"h", true, 1, 0, false, false, [⟨[], [], []⟩]⟩ [[], []] rfl rfl (by decide)
    simpa using h

/-- C9 counterexample: a mock of a target with one declared `int`
return whose side effect panics — the panic is recovered and reported,
but the call produces an empty result list, not the zero value of the
declared return slot (`returnZeros` would be `[0]`). -/
theorem C9_counterexample :
    (makeFuncCall ⟨[GoType.tInt], false⟩
        ⟨"f", false, 1, 0, false, false,
          [⟨[], [some (GoVal.vint 7)],
            [Callback.general 0 (fun _ => Except.error "boom")]⟩]⟩ []).reports
      = [Report.panicRecovered "boom"] ∧
    (makeFuncCall ⟨[GoType.tInt], false⟩
        ⟨"f", false, 1, 0, false, false,
          [⟨[], [some (GoVal.vint 7)],
            [Callback.general 0 (fun _ => Except.error "boom")]⟩]⟩ []).results
      = [] ∧
    returnZeros ⟨[GoType.tInt], false⟩ = [GoVal.vint 0] := by
  exact ⟨rfl, rfl, rfl⟩

/-- C9 amended: a panic raised by user code during a dispatched call is
caught at the closure boundary (`recover`), converted into a reported
failure appended after the reports already emitted, and the closure
returns the nil result slice — an empty result list, which coincides
with the zero-valued results exactly when the target declares no
return values. -/
theorem C9_panic_recovered_empty_results
    (ft : FuncType) (e : FuncEntry) (args : List GoVal) (m : String)
    (h : (makeFuncBody ft e args).pan = some m) :
    makeFuncCall ft e args
      = { entry := (makeFuncBody ft e args).entry,
          reports := (makeFuncBody ft e args).reports ++ [Report.panicRecovered m],
          events := (makeFuncBody ft e args).events,
          results := [], pan := none } ∧
    (ft.outs = [] → (makeFuncCall ft e args).results = returnZeros ft) := by
  have h1 : makeFuncCall ft e args
      = { entry := (makeFuncBody ft e args).entry,
          reports := (makeFuncBody ft e args).reports ++ [Report.panicRecovered m],
          events := (makeFuncBody ft e args).events,
          results := [], pan := none } := by
    simp only [makeFuncCall]
    rw [h]
  refine ⟨h1, ?_⟩
  intro hout
  rw [h1]
  simp [returnZeros, hout]

/-- Witness for the amended C9: concrete panicking side effect on a
target with no declared returns; the empty result list here is the
zero-result list. -/
theorem C9_witness :
    (makeFuncCall ⟨[], false⟩
        ⟨"g", false, 1, 0, false, false,
          [⟨[], [], [Callback.general 0 (fun _ => Except.error "pow")]⟩]⟩ []
      = { entry := (makeFuncBody ⟨[], false⟩
            ⟨"g", false, 1, 0, false, false,
              [⟨[], [], [Callback.general 0 (fun _ => Except.error "pow")]⟩]⟩ []).entry,
          reports := (makeFuncBody ⟨[], false⟩
            ⟨"g", false, 1, 0, false, false,
              [⟨[], [], [Callback.general 0 (fun _ => Except.error "pow")]⟩]⟩ []).reports
            ++ [Report.panicRecovered "pow"],
          events := (makeFuncBody ⟨[], false⟩
            ⟨"g", false, 1, 0, false, false,
              [⟨[], [], [Callback.general 0 (fun _ => Except.error "pow")]⟩]⟩ []).events,
          results := [], pan := none }) ∧
    (makeFuncCall ⟨[], false⟩
        ⟨"g", false, 1, 0, false, false,
          [⟨[], [], [Callback.general 0 (fun _ => Except.error "pow")]⟩]⟩ []).results
      = returnZeros ⟨[], false⟩ := by
  have h := C9_panic_recovered_empty_results ⟨[], false⟩
    ⟨"g", false, 1, 0, false, false,
      [⟨[], [], [Callback.general 0 (fun _ => Except.error "pow")]⟩]⟩ [] "pow" rfl
  exact ⟨h.1, h.2 rfl⟩

/-- Every call to a NotCalled-style entry (stub = false, expect = 0):
each call emits exactly one count-violation report with expected 0 and
1-based actual index, and the final entry keeps its fields with
`actual` advanced and `verified` set from the first call on. -/
theorem dispatchN_notcalled (ft : FuncType) :
    ∀ (argsList : List (List GoVal)) (e : FuncEntry),
      e.stub = false → e.expect = 0 → 0 ≤ e.actual →
      (dispatchN ft e argsList).2.1
        = (List.range argsList.length).map
            (fun i : Nat => Report.unexpectedCalls 0 (e.actual + (i : Int) + 1)) ∧
      (dispatchN ft e argsList).1.stub = false ∧
      (dispatchN ft e argsList).1.expect = 0 ∧
      (dispatchN ft e argsList).1.actual = e.actual + (argsList.length : Int) ∧
      (dispatchN ft e argsList).1.verified
        = (if argsList.isEmpty then e.verified else true) := by
  intro argsList
  induction argsList with
  | nil =>
      intro e hstub hexp hact
      simp [dispatchN, hstub, hexp]
  | cons args rest ih =>
      intro e hstub hexp hact
      have hover : e.actual + 1 > e.expect ∨ e.actual + 1 > ((e.mocks.length : Nat) : Int) :=
        Or.inl (by omega)
      obtain ⟨ih1, ih2, ih3, ih4, ih5⟩ :=
        ih { e with actual := e.actual + 1, verified := true }
          (by simpa using hstub) (by simpa using hexp) (by simp; omega)
      simp only [dispatchN]
      rw [makeFuncCall_nonstub_overflow ft e args hstub hover]
      dsimp only
      refine ⟨?_, ih2, ih3, ?_, ?_⟩
      · rw [ih1, hexp]
        dsimp only
        simp only [List.length_cons, List.range_succ_eq_map, List.map_cons, List.map_map]
        have hfun : ((fun i : Nat => Report.unexpectedCalls 0 (e.actual + (i : Int) + 1))
              ∘ Nat.succ)
            = (fun i : Nat => Report.unexpectedCalls 0 (e.actual + 1 + (i : Int) + 1)) := by
          funext i
          simp only [Function.comp]
          congr 1
          push_cast
          ring
        rw [hfun]
        norm_num
      · rw [ih4]
        dsimp only
        simp only [List.length_cons]
        push_cast
        ring
      · rw [ih5]
        dsimp only
        simp

/-- C4 counterexample: a target finalized via `NotCalled` and then
invoked twice ("invoked at all") produces two count-mismatch reports —
one per call, the second with actual = 2 — not exactly one. -/
theorem C4_counterexample :
    (NotCalled ((setup "f" false 1 ⟨[], none, none⟩).1)).1.entries
      = [(1, ⟨"f", false, 0, 0, true, false, [emptyMock]⟩)] ∧
    (dispatchN ⟨[], false⟩ ⟨"f", false, 0, 0, true, false, [emptyMock]⟩
        [[], []]).2.1
      = [Report.unexpectedCalls 0 1, Report.unexpectedCalls 0 2] := by
  exact ⟨rfl, rfl⟩

/-- C4 amended: for a target finalized via `NotCalled` (expect set to
0, expectations replaced by one empty expectation), every invocation —
not only the first — produces exactly one count-mismatch report, the
k-th invocation with expected 0 and actual k (so a single invocation
yields exactly one report with expected 0, actual 1), and teardown
verification produces no further count-mismatch report for that
target. -/
theorem C4_notcalled_reports_per_call
    (s : MockerState) (p : Nat) (t : MockEntry) (e : FuncEntry)
    (ft : FuncType) (argsList : List (List GoVal))
    (hc : s.current = some p) (ht : s.temp = some t)
    (he : lookupEntry p s.entries = some e)
    (hstub : e.stub = false) (hact : e.actual = 0) :
    lookupEntry p (NotCalled s).1.entries
      = some { e with nocall := true, expect := 0, mocks := [emptyMock] } ∧
    (dispatchN ft { e with nocall := true, expect := 0, mocks := [emptyMock] }
        argsList).2.1
      = (List.range argsList.length).map
          (fun i : Nat => Report.unexpectedCalls 0 ((i : Int) + 1)) ∧
    verifyEntry (dispatchN ft
        { e with nocall := true, expect := 0, mocks := [emptyMock] } argsList).1
      = [] := by
  obtain ⟨r1, r2, r3, r4, r5⟩ := dispatchN_notcalled ft argsList
    { e with nocall := true, expect := 0, mocks := [emptyMock] }
    (by simpa using hstub) rfl (by simp [hact])
  refine ⟨?_, ?_, ?_⟩
  · simp only [NotCalled, hc, ht]
    simp only [lookup_updateEntry, he]
    rfl
  · rw [r1]
    dsimp only
    rw [hact]
    congr 1
    funext i
    congr 1
    ring
  · rcases argsList with _ | ⟨args, rest⟩
    · show verifyEntry { e with nocall := true, expect := 0, mocks := [emptyMock] } = []
      simp only [verifyEntry]
      split
      · rfl
      · rw [if_neg]
        intro hcon
        apply hcon.2
        show (0 : Int) = e.actual
        rw [hact]
    · simp only [verifyEntry, r5]
      simp

/-- Witness for the amended C4: the concrete NotCalled entry invoked
twice yields exactly the per-call reports expected-0/actual-1 and
expected-0/actual-2, with no teardown report. -/
theorem C4_witness :
    lookupEntry 1 (NotCalled ((setup "g" false 1 ⟨[], none, none⟩).1)).1.entries
      = some ⟨"g", false, 0, 0, true, false, [emptyMock]⟩ ∧
    (dispatchN ⟨[], false⟩ ⟨"g", false, 0, 0, true, false, [emptyMock]⟩
        [[], []]).2.1
      = (List.range 2).map (fun i : Nat => Report.unexpectedCalls 0 ((i : Int) + 1)) ∧
    verifyEntry (dispatchN ⟨[], false⟩
        ⟨"g", false, 0, 0, true, false, [emptyMock]⟩ [[], []]).1 = [] := by
  have h := C4_notcalled_reports_per_call
    ((setup "g" false 1 ⟨[], none, none⟩).1) 1 emptyMock
    ⟨"g", false, 0, 0, false, false, []⟩ ⟨[], false⟩ [[], []]
    rfl rfl rfl rfl rfl
  exact h

end Gomocker
